import Mathlib

/-!
Verification of the batch-fetch engine of `src/data.py`.

The engine (`batch_query`) turns a list of identifiers into a durable
key-to-result map: it loads a JSON checkpoint, filters out identifiers
already resolved, slices the rest into fixed-size batches, issues one
HTTP request per batch, classifies the outcome (success / throttled /
fatal error marker), merges transformed records into the checkpoint,
adapts a delay multiplicatively, and dumps the checkpoint periodically
and at the end.  One further exit exists: the throttled branch
debug-prints `json.loads(response.text)` when the body lacks
`"Too Many Requests"`, so a throttled body that is not valid JSON
raises an uncaught exception and aborts the run before the sleep.

The embedding below mirrors the source line by line.  The remote server
is modelled as a script: the list of HTTP responses the successive
requests receive.  Machine reals (Python floats) are modelled as exact
rationals, fallible I/O as explicit result fields.
-/

/-- A query identifier: the source passes either strings
(`"ARXIV:<id>"` in `prepare_papers_data`) or Python ints
(author ids in `prepare_authors_data`).  Python equality keeps the
two kinds distinct (`5 != "5"`). -/
inductive Ident where
  | str : String → Ident
  | int : Int → Ident
deriving DecidableEq, Repr

/-- JSON values, as far as the engine observes them: the engine itself
only tests entries against `null` (Python `None`); everything else is
opaque payload handed to the caller's transform. -/
inductive Json where
  | null : Json
  | num : Int → Json
  | str : String → Json
  | arr : List Json → Json
  | obj : List (String × Json) → Json

/-- One HTTP response as the engine sees it: `status` is
`response.status_code`, `text` is the raw body `response.text`,
`textParses` says whether `json.loads(response.text)` succeeds (the
source parses the raw body of a throttled response unless it contains
`"Too Many Requests"`, and an invalid-JSON body makes that call raise),
and `body` is the parsed array `response.json()` that the success path
iterates over.  A faithful script keeps `textParses` and `body`
coherent with `text`; the engine reads `text`/`textParses` only on
non-2xx responses and `body` only on 2xx ones, exactly as the source
touches `response.text` only under `status_code != 200` and
`response.json()` only after that check fails. -/
structure HttpResponse where
  status : Nat
  text : String
  textParses : Bool
  body : List Json

/-- The in-memory checkpoint `data`: a Python dict from identifier to
result-or-`None`, i.e. an ordered association list with unique keys
(insertion keeps position, new keys append — Python dict semantics). -/
abbrev Checkpoint := List (Ident × Json)

/-- `k in data.keys()`. -/
def Checkpoint.hasKey : Checkpoint → Ident → Bool
  | [], _ => false
  | p :: ps, k => p.1 == k || Checkpoint.hasKey ps k

/-- `data[k]` as a total lookup (first, hence unique, occurrence). -/
def Checkpoint.lookup : Checkpoint → Ident → Option Json
  | [], _ => none
  | p :: ps, k => if p.1 = k then some p.2 else Checkpoint.lookup ps k

/-- `data[k] = v`: replace the value at an existing key in place,
otherwise append the new key (Python dict assignment). -/
def Checkpoint.insert : Checkpoint → Ident → Json → Checkpoint
  | [], k, v => [(k, v)]
  | p :: ps, k, v => if p.1 = k then (k, v) :: ps else p :: Checkpoint.insert ps k v

-- The engine's configuration constants (module-level in the source).
def QUERY_BASE_DELAY : ℚ := 1 / 10
def QUERY_MULT_DELAY : ℚ := 6 / 5
def QUERY_DUMP_INTERVAL : ℕ := 10

/-- Substring containment on character lists (Python's `in` on str). -/
def containsSub : List Char → List Char → Bool
  | hay, pat =>
    if pat.isPrefixOf hay then true
    else
      match hay with
      | [] => false
      | _ :: t => containsSub t pat

/-- `"error" in response.text`: the fatal-error marker test. -/
def textHasError (t : String) : Bool :=
  containsSub t.toList ("error".toList)

/-- `"Too Many Requests" in response.text`: the guard in front of the
debug print of the throttled branch. -/
def textHasTMR (t : String) : Bool :=
  containsSub t.toList ("Too Many Requests".toList)

/-- The per-entry recording rule of the success branch:
`None` entries are stored as `None` (Absent) without invoking the
transform; any other entry is stored as `process_response_f(entry)`. -/
def recordVal (tf : Json → Json) (entry : Json) : Json :=
  match entry with
  | Json.null => Json.null
  | e => tf e

/-- `for id, response in zip(batch_ids, response.json()): ...` —
merge one successful batch's positionally aligned entries into the
checkpoint; `zip` truncates at the shorter of the two lists. -/
def mergeBatch (tf : Json → Json) : Checkpoint → List Ident → List Json → Checkpoint
  | data, id :: bs, e :: es =>
      mergeBatch tf (Checkpoint.insert data id (recordVal tf e)) bs es
  | data, _, _ => data

/-- `filtered_query_ids = [id for id in query_ids if id not in data.keys()]`. -/
def workSet (data : Checkpoint) (query_ids : List Ident) : List Ident :=
  query_ids.filter (fun id => !Checkpoint.hasKey data id)

/-- `delay *= QUERY_MULT_DELAY` (the throttled branch). -/
def onThrottled (d : ℚ) : ℚ := d * QUERY_MULT_DELAY

/-- `delay = max(QUERY_BASE_DELAY, delay / QUERY_MULT_DELAY)` (after a
successful batch). -/
def onSuccess (d : ℚ) : ℚ := max QUERY_BASE_DELAY (d / QUERY_MULT_DELAY)

/-- The loop's mutable state: the checkpoint dict `data`, the content
of the checkpoint file on disk (`none` = the file does not exist), the
work-set pointer `idx` and the current `delay`. -/
structure EngineState where
  data : Checkpoint
  persisted : Option Checkpoint
  idx : ℕ
  delay : ℚ

/-- Observable outcome of a run: final in-memory dict, final file
content, the trace of issued requests (each with the dict at the moment
the request was sent), the successive values slept on, the pointer
values at which periodic dumps fired, and how the run ended
(`fatal` = `sys.exit(1)` on the error marker; `crashed` = an uncaught
`JSONDecodeError` from `json.loads(response.text)` in the throttled
branch's debug print; `outOfScript` = the response script was exhausted
while work remained, which terminates the model only). -/
structure RunResult where
  data : Checkpoint
  persisted : Option Checkpoint
  trace : List (List Ident × Checkpoint)
  delays : List ℚ
  dumps : List ℕ
  fatal : Bool
  crashed : Bool
  outOfScript : Bool

/-- The batches actually sent over the wire, in order. -/
def RunResult.reqs (r : RunResult) : List (List Ident) :=
  r.trace.map Prod.fst

/-- The `while idx < len(filtered_query_ids)` loop of `batch_query`,
driven by the response script.  Each iteration slices
`filtered_query_ids[idx : idx + batch_size]`, sends it, and
classifies the response exactly as the source does. -/
def runLoop (ids : List Ident) (bs : ℕ) (tf : Json → Json) :
    List HttpResponse → EngineState → RunResult
  | [], s =>
    if s.idx < ids.length then
      -- the model ran out of scripted responses mid-run
      { data := s.data, persisted := s.persisted, trace := [], delays := [],
        dumps := [], fatal := false, crashed := false, outOfScript := true }
    else
      -- loop over; unconditional final dump
      { data := s.data, persisted := some s.data, trace := [], delays := [],
        dumps := [], fatal := false, crashed := false, outOfScript := false }
  | r :: rest, s =>
    if s.idx < ids.length then
      let batch := (ids.drop s.idx).take bs
      if r.status ≠ 200 then
        if textHasError r.text then
          -- `sys.exit(1)`: no merge, no further requests, file untouched
          { data := s.data, persisted := s.persisted,
            trace := [(batch, s.data)], delays := [], dumps := [],
            fatal := true, crashed := false, outOfScript := false }
        else
          -- throttled: increase the delay, then (unless the body
          -- contains "Too Many Requests") debug-print
          -- `json.loads(response.text)` — which raises on a non-JSON
          -- body and aborts the run before the sleep; otherwise sleep
          -- and retry the same batch
          let d := onThrottled s.delay
          if textHasTMR r.text || r.textParses then
            let res := runLoop ids bs tf rest { s with delay := d }
            { res with trace := (batch, s.data) :: res.trace,
                       delays := d :: res.delays }
          else
            { data := s.data, persisted := s.persisted,
              trace := [(batch, s.data)], delays := [], dumps := [],
              fatal := false, crashed := true, outOfScript := false }
      else
        -- success: merge positionally, advance, decay delay, maybe dump
        let data := mergeBatch tf s.data batch r.body
        let idx := s.idx + bs
        let d := onSuccess s.delay
        let doDump := idx % (bs * QUERY_DUMP_INTERVAL) == 0
        let persisted := if doDump then some data else s.persisted
        let res := runLoop ids bs tf rest
          { data := data, persisted := persisted, idx := idx, delay := d }
        { res with trace := (batch, s.data) :: res.trace,
                   delays := d :: res.delays,
                   dumps := if doDump then idx :: res.dumps else res.dumps }
    else
      { data := s.data, persisted := some s.data, trace := [], delays := [],
        dumps := [], fatal := false, crashed := false, outOfScript := false }

/-- `batch_query(json_save_path, query_ids, batch_size, …)`:
`saved` is the parsed content of the checkpoint file (`none` when the
file does not exist, in which case `data = {}`); `script` is the
sequence of responses the server gives to successive requests. -/
def batch_query (saved : Option Checkpoint) (query_ids : List Ident)
    (batch_size : ℕ) (tf : Json → Json) (script : List HttpResponse) :
    RunResult :=
  let data := saved.getD []
  runLoop (workSet data query_ids) batch_size tf script
    { data := data, persisted := saved, idx := 0, delay := QUERY_BASE_DELAY }

/-- The string a checkpoint key is written as in the JSON file:
`json.dump` keeps string keys and coerces int keys with `str()`. -/
def identKeyString : Ident → String
  | Ident.str s => s
  | Ident.int n => toString n

/-- `json.dump` followed by `json.load` on the checkpoint file: every
key comes back as a string (`json.load` only ever produces string
keys), values round-trip unchanged. -/
def saveLoad (d : Checkpoint) : Checkpoint :=
  d.map (fun p => (Ident.str (identKeyString p.1), p.2))

/-- A throttling response: non-2xx, no `"error"` marker, the plain
`"Too Many Requests"` body (which is not valid JSON, so the source
skips parsing it thanks to the line-84 guard). -/
def thrResp : HttpResponse :=
  { status := 429, text := "Too Many Requests", textParses := false,
    body := [] }

/-- A successful response carrying the given parsed JSON array (the
source never reads `response.text` on the 2xx path). -/
def okResp (body : List Json) : HttpResponse :=
  { status := 200, text := "", textParses := true, body := body }

example : textHasError "Too Many Requests" = false := by decide
example : textHasError "code 42: error: bad id" = true := by decide
example : workSet [(Ident.int 1, Json.null)] [Ident.int 1, Ident.int 2]
    = [Ident.int 2] := by decide

/-! ### Checkpoint dictionary lemmas -/

theorem Checkpoint.lookup_insert_self (d : Checkpoint) (k : Ident) (v : Json) :
    Checkpoint.lookup (Checkpoint.insert d k v) k = some v := by
  induction d with
  | nil => simp [Checkpoint.insert, Checkpoint.lookup]
  | cons p ps ih =>
    by_cases h : p.1 = k
    · simp [Checkpoint.insert, Checkpoint.lookup, h]
    · simp [Checkpoint.insert, Checkpoint.lookup, h, ih]

theorem Checkpoint.lookup_insert_ne (d : Checkpoint) (k k' : Ident) (v : Json)
    (h : k' ≠ k) :
    Checkpoint.lookup (Checkpoint.insert d k v) k' = Checkpoint.lookup d k' := by
  induction d with
  | nil => simp [Checkpoint.insert, Checkpoint.lookup, Ne.symm h]
  | cons p ps ih =>
    by_cases hp : p.1 = k
    · simp [Checkpoint.insert, Checkpoint.lookup, hp, Ne.symm h]
    · by_cases hp' : p.1 = k'
      · simp [Checkpoint.insert, Checkpoint.lookup, hp, hp', h]
      · simp [Checkpoint.insert, Checkpoint.lookup, hp, hp', ih]

theorem Checkpoint.hasKey_insert (d : Checkpoint) (k k' : Ident) (v : Json) :
    Checkpoint.hasKey (Checkpoint.insert d k v) k' =
      (Checkpoint.hasKey d k' || (k == k')) := by
  induction d with
  | nil => simp [Checkpoint.insert, Checkpoint.hasKey]
  | cons p ps ih =>
    by_cases hp : p.1 = k
    · simp only [Checkpoint.insert, if_pos hp, Checkpoint.hasKey, hp]
      cases hk : (k == k') <;> simp [hk]
    · simp only [Checkpoint.insert, if_neg hp, Checkpoint.hasKey, ih, Bool.or_assoc]

theorem Checkpoint.hasKey_eq_false_iff (d : Checkpoint) (k : Ident) :
    Checkpoint.hasKey d k = false ↔ Checkpoint.lookup d k = none := by
  induction d with
  | nil => simp [Checkpoint.hasKey, Checkpoint.lookup]
  | cons p ps ih =>
    by_cases hp : p.1 = k
    · simp [Checkpoint.hasKey, Checkpoint.lookup, hp]
    · simp [Checkpoint.hasKey, Checkpoint.lookup, hp, ih]

/-! ### mergeBatch lemmas -/

theorem mergeBatch_lookup_of_not_mem_take (tf : Json → Json) (d : Checkpoint)
    (b : List Ident) (es : List Json) (key : Ident)
    (h : key ∉ List.take es.length b) :
    Checkpoint.lookup (mergeBatch tf d b es) key = Checkpoint.lookup d key := by
  induction b generalizing d es with
  | nil => cases es <;> simp [mergeBatch]
  | cons x bs ih =>
    cases es with
    | nil => simp [mergeBatch]
    | cons e es' =>
      simp only [List.length_cons, List.take_succ_cons, List.mem_cons, not_or] at h
      rw [mergeBatch, ih _ _ h.2,
        Checkpoint.lookup_insert_ne _ _ _ _ h.1]

theorem mergeBatch_lookup_aligned (tf : Json → Json) (d : Checkpoint)
    (b : List Ident) (es : List Json) (i : ℕ) (key : Ident) (e : Json)
    (hnd : b.Nodup) (hb : b[i]? = some key) (he : es[i]? = some e) :
    Checkpoint.lookup (mergeBatch tf d b es) key = some (recordVal tf e) := by
  induction i generalizing b es d with
  | zero =>
    cases b with
    | nil => simp at hb
    | cons x bs =>
      cases es with
      | nil => simp at he
      | cons y ys =>
        simp only [List.getElem?_cons_zero, Option.some_inj] at hb he
        have hx : key ∉ bs := hb ▸ (List.nodup_cons.mp hnd).1
        have hx' : key ∉ List.take ys.length bs := by
          intro hmem
          exact hx (List.take_subset _ _ hmem)
        rw [mergeBatch, mergeBatch_lookup_of_not_mem_take _ _ _ _ _ hx',
          hb, he, Checkpoint.lookup_insert_self]
  | succ n ih =>
    cases b with
    | nil => simp at hb
    | cons x bs =>
      cases es with
      | nil => simp at he
      | cons y ys =>
        simp only [List.getElem?_cons_succ] at hb he
        rw [mergeBatch]
        exact ih _ _ _ (List.nodup_cons.mp hnd).2 hb he

theorem mergeBatch_hasKey (tf : Json → Json) (d : Checkpoint)
    (b : List Ident) (es : List Json) (k : Ident)
    (h : Checkpoint.hasKey (mergeBatch tf d b es) k = true) :
    Checkpoint.hasKey d k = true ∨ k ∈ b := by
  induction b generalizing d es with
  | nil => exact Or.inl (by cases es <;> simpa [mergeBatch] using h)
  | cons x bs ih =>
    cases es with
    | nil => exact Or.inl (by simpa [mergeBatch] using h)
    | cons e es' =>
      rw [mergeBatch] at h
      rcases ih _ _ h with h1 | h1
      · rw [Checkpoint.hasKey_insert] at h1
        rcases Bool.or_eq_true_iff.mp h1 with h2 | h2
        · exact Or.inl h2
        · exact Or.inr (by simp [eq_of_beq h2])
      · exact Or.inr (List.mem_cons_of_mem _ h1)

theorem mergeBatch_congr (tf1 tf2 : Json → Json) (d : Checkpoint)
    (b : List Ident) (es : List Json)
    (h : ∀ x, x ≠ Json.null → tf1 x = tf2 x) :
    mergeBatch tf1 d b es = mergeBatch tf2 d b es := by
  induction b generalizing d es with
  | nil => cases es <;> simp [mergeBatch]
  | cons x bs ih =>
    cases es with
    | nil => simp [mergeBatch]
    | cons e es' =>
      rw [mergeBatch, mergeBatch]
      have : recordVal tf1 e = recordVal tf2 e := by
        cases e with
        | null => simp [recordVal]
        | num n => exact h _ (by simp)
        | str s => exact h _ (by simp)
        | arr xs => exact h _ (by simp)
        | obj fs => exact h _ (by simp)
      rw [this, ih]

/-! ### Single loop-iteration equations, one per outcome class -/

theorem runLoop_done (ids : List Ident) (bs : ℕ) (tf : Json → Json)
    (script : List HttpResponse) (s : EngineState)
    (h : ¬ s.idx < ids.length) :
    runLoop ids bs tf script s =
      { data := s.data, persisted := some s.data, trace := [], delays := [],
        dumps := [], fatal := false, crashed := false,
        outOfScript := false } := by
  cases script <;> simp [runLoop, h]

theorem runLoop_fatal (ids : List Ident) (bs : ℕ) (tf : Json → Json)
    (r : HttpResponse) (rest : List HttpResponse) (s : EngineState)
    (hidx : s.idx < ids.length) (hst : r.status ≠ 200)
    (herr : textHasError r.text = true) :
    runLoop ids bs tf (r :: rest) s =
      { data := s.data, persisted := s.persisted,
        trace := [((ids.drop s.idx).take bs, s.data)], delays := [],
        dumps := [], fatal := true, crashed := false,
        outOfScript := false } := by
  simp [runLoop, hidx, hst, herr]

theorem runLoop_throttle (ids : List Ident) (bs : ℕ) (tf : Json → Json)
    (r : HttpResponse) (rest : List HttpResponse) (s : EngineState)
    (hidx : s.idx < ids.length) (hst : r.status ≠ 200)
    (herr : textHasError r.text = false)
    (hret : (textHasTMR r.text || r.textParses) = true) :
    runLoop ids bs tf (r :: rest) s =
      { runLoop ids bs tf rest { s with delay := onThrottled s.delay } with
        trace := ((ids.drop s.idx).take bs, s.data) ::
          (runLoop ids bs tf rest { s with delay := onThrottled s.delay }).trace,
        delays := onThrottled s.delay ::
          (runLoop ids bs tf rest { s with delay := onThrottled s.delay }).delays } := by
  simp [runLoop, hidx, hst, herr, hret]

theorem runLoop_throttle_crash (ids : List Ident) (bs : ℕ) (tf : Json → Json)
    (r : HttpResponse) (rest : List HttpResponse) (s : EngineState)
    (hidx : s.idx < ids.length) (hst : r.status ≠ 200)
    (herr : textHasError r.text = false)
    (htmr : textHasTMR r.text = false) (hpar : r.textParses = false) :
    runLoop ids bs tf (r :: rest) s =
      { data := s.data, persisted := s.persisted,
        trace := [((ids.drop s.idx).take bs, s.data)], delays := [],
        dumps := [], fatal := false, crashed := true,
        outOfScript := false } := by
  simp [runLoop, hidx, hst, herr, htmr, hpar]

theorem runLoop_success (ids : List Ident) (bs : ℕ) (tf : Json → Json)
    (r : HttpResponse) (rest : List HttpResponse) (s : EngineState)
    (hidx : s.idx < ids.length) (hok : r.status = 200) :
    runLoop ids bs tf (r :: rest) s =
      (let batch := (ids.drop s.idx).take bs
       let data := mergeBatch tf s.data batch r.body
       let idx := s.idx + bs
       let doDump := idx % (bs * QUERY_DUMP_INTERVAL) == 0
       let res := runLoop ids bs tf rest
         { data := data, persisted := if doDump then some data else s.persisted,
           idx := idx, delay := onSuccess s.delay }
       { res with trace := (batch, s.data) :: res.trace,
                  delays := onSuccess s.delay :: res.delays,
                  dumps := if doDump then idx :: res.dumps else res.dumps }) := by
  simp [runLoop, hidx, hok]

/-! ### Whole-run invariants -/

/-- Every identifier of every issued request lies in the unprocessed
part of the work-set the iteration started from. -/
theorem runLoop_reqs_mem (ids : List Ident) (bs : ℕ) (tf : Json → Json)
    (script : List HttpResponse) (s : EngineState) :
    ∀ req ∈ (runLoop ids bs tf script s).reqs, ∀ k ∈ req, k ∈ ids.drop s.idx := by
  induction script generalizing s with
  | nil =>
    intro req hreq
    by_cases h : s.idx < ids.length <;>
      simp [runLoop, h, RunResult.reqs] at hreq
  | cons r rest ih =>
    by_cases h : s.idx < ids.length
    · have hdrop : ∀ k ∈ (ids.drop s.idx).take bs, k ∈ ids.drop s.idx :=
        fun k hk => List.take_subset _ _ hk
      by_cases hst : r.status = 200
      · rw [runLoop_success ids bs tf r rest s h hst]
        intro req hreq k hk
        simp only [RunResult.reqs, List.map_cons, List.mem_cons] at hreq
        rcases hreq with hreq | hreq
        · exact hdrop k (hreq ▸ hk)
        · have := ih _ req (by simpa [RunResult.reqs] using hreq) k hk
          have hsub : ids.drop (s.idx + bs) ⊆ ids.drop s.idx := by
            rw [← List.drop_drop]
            exact List.drop_subset _ _
          exact hsub this
      · by_cases herr : textHasError r.text
        · rw [runLoop_fatal ids bs tf r rest s h hst herr]
          intro req hreq k hk
          simp only [RunResult.reqs, List.map_cons, List.map_nil,
            List.mem_singleton] at hreq
          exact hdrop k (hreq ▸ hk)
        · by_cases hret : (textHasTMR r.text || r.textParses) = true
          · rw [runLoop_throttle ids bs tf r rest s h hst
              (Bool.eq_false_iff.mpr (fun hc => herr hc)) hret]
            intro req hreq k hk
            simp only [RunResult.reqs, List.map_cons, List.mem_cons] at hreq
            rcases hreq with hreq | hreq
            · exact hdrop k (hreq ▸ hk)
            · exact ih { s with delay := onThrottled s.delay } req
                (by simpa [RunResult.reqs] using hreq) k hk
          · have h2 : textHasTMR r.text = false ∧ r.textParses = false := by
              cases hx : textHasTMR r.text <;>
                cases hy : r.textParses <;> simp_all
            rw [runLoop_throttle_crash ids bs tf r rest s h hst
              (Bool.eq_false_iff.mpr (fun hc => herr hc)) h2.1 h2.2]
            intro req hreq k hk
            simp only [RunResult.reqs, List.map_cons, List.map_nil,
              List.mem_singleton] at hreq
            exact hdrop k (hreq ▸ hk)
    · rw [runLoop_done ids bs tf _ s h]
      intro req hreq
      simp [RunResult.reqs] at hreq

/-- Requests only ever carry identifiers that are unresolved at the
moment the request is issued, provided the work-set has no duplicates
and starts disjoint from the already-resolved keys. -/
theorem runLoop_trace_unresolved (ids : List Ident) (bs : ℕ) (tf : Json → Json)
    (script : List HttpResponse) (s : EngineState)
    (hnd : ids.Nodup)
    (hinv : ∀ k, Checkpoint.hasKey s.data k = true → k ∉ ids.drop s.idx) :
    ∀ p ∈ (runLoop ids bs tf script s).trace, ∀ k ∈ p.1,
      Checkpoint.hasKey p.2 k = false := by
  induction script generalizing s with
  | nil =>
    intro p hp
    by_cases h : s.idx < ids.length <;> simp [runLoop, h] at hp
  | cons r rest ih =>
    by_cases h : s.idx < ids.length
    · have hhead : ∀ k ∈ (ids.drop s.idx).take bs,
          Checkpoint.hasKey s.data k = false := by
        intro k hk
        cases hcase : Checkpoint.hasKey s.data k
        · rfl
        · exact absurd (List.take_subset _ _ hk) (hinv k hcase)
      by_cases hst : r.status = 200
      · rw [runLoop_success ids bs tf r rest s h hst]
        intro p hp k hk
        simp only [List.mem_cons] at hp
        rcases hp with hp | hp
        · subst hp
          exact hhead k hk
        · refine ih _ ?_ p hp k hk
          intro k' hk'
          rcases mergeBatch_hasKey _ _ _ _ _ hk' with h1 | h1
          · intro hmem
            exact hinv k' h1 (by
              rw [← List.drop_drop] at hmem
              exact List.drop_subset _ _ hmem)
          · intro hmem
            rw [← List.drop_drop] at hmem
            exact (List.disjoint_take_drop
              ((List.drop_sublist s.idx ids).nodup hnd) (le_refl bs)) h1 hmem
      · by_cases herr : textHasError r.text
        · rw [runLoop_fatal ids bs tf r rest s h hst herr]
          intro p hp k hk
          simp only [List.mem_singleton] at hp
          subst hp
          exact hhead k hk
        · by_cases hret : (textHasTMR r.text || r.textParses) = true
          · rw [runLoop_throttle ids bs tf r rest s h hst
              (Bool.eq_false_iff.mpr (fun hc => herr hc)) hret]
            intro p hp k hk
            simp only [List.mem_cons] at hp
            rcases hp with hp | hp
            · subst hp
              exact hhead k hk
            · exact ih { s with delay := onThrottled s.delay } hinv p hp k hk
          · have h2 : textHasTMR r.text = false ∧ r.textParses = false := by
              cases hx : textHasTMR r.text <;>
                cases hy : r.textParses <;> simp_all
            rw [runLoop_throttle_crash ids bs tf r rest s h hst
              (Bool.eq_false_iff.mpr (fun hc => herr hc)) h2.1 h2.2]
            intro p hp k hk
            simp only [List.mem_singleton] at hp
            subst hp
            exact hhead k hk
    · rw [runLoop_done ids bs tf _ s h]
      intro p hp
      simp at hp

theorem onSuccess_ge (d : ℚ) : QUERY_BASE_DELAY ≤ onSuccess d :=
  le_max_left _ _

theorem onThrottled_ge (d : ℚ) (h : QUERY_BASE_DELAY ≤ d) :
    QUERY_BASE_DELAY ≤ onThrottled d := by
  have h0 : (0 : ℚ) ≤ d :=
    le_trans (by norm_num [QUERY_BASE_DELAY]) h
  calc QUERY_BASE_DELAY ≤ d := h
    _ ≤ d * QUERY_MULT_DELAY :=
        le_mul_of_one_le_right h0 (by norm_num [QUERY_MULT_DELAY])

/-- The delay slept on never drops below the configured base delay. -/
theorem runLoop_delays_ge (ids : List Ident) (bs : ℕ) (tf : Json → Json)
    (script : List HttpResponse) (s : EngineState)
    (h0 : QUERY_BASE_DELAY ≤ s.delay) :
    ∀ x ∈ (runLoop ids bs tf script s).delays, QUERY_BASE_DELAY ≤ x := by
  induction script generalizing s with
  | nil =>
    intro x hx
    by_cases h : s.idx < ids.length <;> simp [runLoop, h] at hx
  | cons r rest ih =>
    by_cases h : s.idx < ids.length
    · by_cases hst : r.status = 200
      · rw [runLoop_success ids bs tf r rest s h hst]
        intro x hx
        simp only [List.mem_cons] at hx
        rcases hx with hx | hx
        · exact hx ▸ onSuccess_ge s.delay
        · exact ih _ (onSuccess_ge s.delay) x hx
      · by_cases herr : textHasError r.text
        · rw [runLoop_fatal ids bs tf r rest s h hst herr]
          intro x hx
          simp at hx
        · by_cases hret : (textHasTMR r.text || r.textParses) = true
          · rw [runLoop_throttle ids bs tf r rest s h hst
              (Bool.eq_false_iff.mpr (fun hc => herr hc)) hret]
            intro x hx
            simp only [List.mem_cons] at hx
            rcases hx with hx | hx
            · exact hx ▸ onThrottled_ge s.delay h0
            · exact ih { s with delay := onThrottled s.delay }
                (onThrottled_ge s.delay h0) x hx
          · have h2 : textHasTMR r.text = false ∧ r.textParses = false := by
              cases hx : textHasTMR r.text <;>
                cases hy : r.textParses <;> simp_all
            rw [runLoop_throttle_crash ids bs tf r rest s h hst
              (Bool.eq_false_iff.mpr (fun hc => herr hc)) h2.1 h2.2]
            intro x hx
            simp at hx
    · rw [runLoop_done ids bs tf _ s h]
      intro x hx
      simp at hx

/-- Periodic dumps only ever fire at pointer values that are exact
multiples of `batch_size * QUERY_DUMP_INTERVAL`. -/
theorem runLoop_dumps_dvd (ids : List Ident) (bs : ℕ) (tf : Json → Json)
    (script : List HttpResponse) (s : EngineState) :
    ∀ n ∈ (runLoop ids bs tf script s).dumps, (bs * QUERY_DUMP_INTERVAL) ∣ n := by
  induction script generalizing s with
  | nil =>
    intro n hn
    by_cases h : s.idx < ids.length <;> simp [runLoop, h] at hn
  | cons r rest ih =>
    by_cases h : s.idx < ids.length
    · by_cases hst : r.status = 200
      · rw [runLoop_success ids bs tf r rest s h hst]
        intro n hn
        simp only at hn
        by_cases hdump : (s.idx + bs) % (bs * QUERY_DUMP_INTERVAL) == 0
        · rw [if_pos hdump, List.mem_cons] at hn
          rcases hn with hn | hn
          · exact hn ▸ Nat.dvd_of_mod_eq_zero (by simpa using hdump)
          · exact ih _ n hn
        · rw [if_neg hdump] at hn
          exact ih _ n hn
      · by_cases herr : textHasError r.text
        · rw [runLoop_fatal ids bs tf r rest s h hst herr]
          intro n hn
          simp at hn
        · by_cases hret : (textHasTMR r.text || r.textParses) = true
          · rw [runLoop_throttle ids bs tf r rest s h hst
              (Bool.eq_false_iff.mpr (fun hc => herr hc)) hret]
            intro n hn
            exact ih { s with delay := onThrottled s.delay } n hn
          · have h2 : textHasTMR r.text = false ∧ r.textParses = false := by
              cases hx : textHasTMR r.text <;>
                cases hy : r.textParses <;> simp_all
            rw [runLoop_throttle_crash ids bs tf r rest s h hst
              (Bool.eq_false_iff.mpr (fun hc => herr hc)) h2.1 h2.2]
            intro n hn
            simp at hn
    · rw [runLoop_done ids bs tf _ s h]
      intro n hn
      simp at hn

/-- `n` consecutive throttled responses leave the pointer in place and
produce the delay sequence `d*M, d*M², …, d*Mⁿ`. -/
theorem runLoop_replicate_throttle_delays (ids : List Ident) (bs : ℕ)
    (tf : Json → Json) (n : ℕ) (s : EngineState) (h : s.idx < ids.length) :
    (runLoop ids bs tf (List.replicate n thrResp) s).delays =
      (List.range n).map (fun k => s.delay * QUERY_MULT_DELAY ^ (k + 1)) := by
  induction n generalizing s with
  | zero => simp [runLoop, h]
  | succ m ih =>
    rw [List.replicate_succ,
      runLoop_throttle ids bs tf thrResp _ s h (by decide) (by decide)
        (by decide)]
    simp only
    rw [ih { s with delay := onThrottled s.delay } h]
    rw [List.range_succ_eq_map, List.map_cons, List.map_map]
    refine congrArg₂ _ (by simp [onThrottled]) ?_
    refine List.map_congr_left ?_
    intro k _
    simp only [Function.comp, onThrottled, pow_succ]
    ring

/-! ### Rate-limiter algebra -/

theorem onThrottled_iterate (d : ℚ) (k : ℕ) :
    onThrottled^[k] d = d * QUERY_MULT_DELAY ^ k := by
  induction k with
  | zero => simp
  | succ m ih =>
    rw [Function.iterate_succ_apply', ih, onThrottled, pow_succ, mul_assoc]

theorem one_le_mult_pow (j : ℕ) : (1 : ℚ) ≤ QUERY_MULT_DELAY ^ j :=
  one_le_pow₀ (by norm_num [QUERY_MULT_DELAY])

theorem onSuccess_iterate (N k : ℕ) (hk : k ≤ N) :
    onSuccess^[k] (QUERY_BASE_DELAY * QUERY_MULT_DELAY ^ N) =
      QUERY_BASE_DELAY * QUERY_MULT_DELAY ^ (N - k) := by
  induction k with
  | zero => simp
  | succ m ih =>
    have hm : m ≤ N := Nat.le_of_succ_le hk
    rw [Function.iterate_succ_apply', ih hm, onSuccess]
    have h1 : N - m = (N - (m + 1)) + 1 := by omega
    rw [h1, pow_succ, ← mul_assoc,
      mul_div_cancel_right₀ _ (by norm_num [QUERY_MULT_DELAY] : QUERY_MULT_DELAY ≠ 0)]
    exact max_eq_right (le_mul_of_one_le_right
      (by norm_num [QUERY_BASE_DELAY]) (one_le_mult_pow _))

theorem base_times_pow_unbounded (B : ℚ) :
    ∃ n, B < QUERY_BASE_DELAY * QUERY_MULT_DELAY ^ n := by
  obtain ⟨n, hn⟩ := pow_unbounded_of_one_lt (B / QUERY_BASE_DELAY)
    (by norm_num [QUERY_MULT_DELAY] : (1 : ℚ) < QUERY_MULT_DELAY)
  refine ⟨n, ?_⟩
  have hD : (0 : ℚ) < QUERY_BASE_DELAY := by norm_num [QUERY_BASE_DELAY]
  calc B = B / QUERY_BASE_DELAY * QUERY_BASE_DELAY := by field_simp
    _ < QUERY_MULT_DELAY ^ n * QUERY_BASE_DELAY := by
        exact mul_lt_mul_of_pos_right hn hD
    _ = QUERY_BASE_DELAY * QUERY_MULT_DELAY ^ n := mul_comm _ _

theorem onSuccess_iterate_ge (k : ℕ) (d : ℚ) (h : QUERY_BASE_DELAY ≤ d) :
    QUERY_BASE_DELAY ≤ onSuccess^[k] d := by
  induction k with
  | zero => simpa using h
  | succ m _ => rw [Function.iterate_succ_apply']; exact onSuccess_ge _

theorem Checkpoint.hasKey_iff_exists (d : Checkpoint) (k : Ident) :
    Checkpoint.hasKey d k = true ↔ ∃ p ∈ d, p.1 = k := by
  induction d with
  | nil => simp [Checkpoint.hasKey]
  | cons p ps ih =>
    rw [Checkpoint.hasKey]
    constructor
    · intro h
      rcases Bool.or_eq_true_iff.mp h with h1 | h1
      · exact ⟨p, List.mem_cons_self _ _, eq_of_beq h1⟩
      · obtain ⟨q, hq, hq1⟩ := ih.mp h1
        exact ⟨q, List.mem_cons_of_mem _ hq, hq1⟩
    · rintro ⟨q, hq, hq1⟩
      rcases List.mem_cons.mp hq with hq2 | hq2
      · exact Bool.or_eq_true_iff.mpr (Or.inl (beq_iff_eq.mpr (hq2 ▸ hq1)))
      · exact Bool.or_eq_true_iff.mpr (Or.inr (ih.mpr ⟨q, hq2, hq1⟩))

/-! ### The claims -/

/-- C7: the work-set computed by `batch_query` is exactly the sub-list
of requested identifiers whose keys are absent from the loaded
checkpoint's key set, in the same relative order as the input list. -/
theorem C7_work_set_resolver (data : Checkpoint) (qids : List Ident) :
    (workSet data qids).Sublist qids ∧
    (∀ k, k ∈ workSet data qids ↔
      k ∈ qids ∧ Checkpoint.hasKey data k = false) ∧
    (∀ (saved : Option Checkpoint) (bs : ℕ) (tf : Json → Json)
        (script : List HttpResponse),
      batch_query saved qids bs tf script =
        runLoop (workSet (saved.getD []) qids) bs tf script
          { data := saved.getD [], persisted := saved, idx := 0,
            delay := QUERY_BASE_DELAY }) := by
  refine ⟨List.filter_sublist _, fun k => ?_, fun saved bs tf script => rfl⟩
  rw [workSet, List.mem_filter]
  simp

/-- C5: for a successful batch, a positionally aligned pair whose entry
is null is recorded as Absent (null) for its identifier without the
transform being invoked on it (the merge result does not depend on the
transform's values off the non-null entries); a non-null entry is
recorded as the transform of that entry. -/
theorem C5_null_handling (d : Checkpoint) (b : List Ident) (es : List Json)
    (tf : Json → Json) (i : ℕ) (key : Ident) (e : Json)
    (hnd : b.Nodup) (hb : b[i]? = some key) (he : es[i]? = some e) :
    (e = Json.null →
      Checkpoint.lookup (mergeBatch tf d b es) key = some Json.null) ∧
    (e ≠ Json.null →
      Checkpoint.lookup (mergeBatch tf d b es) key = some (tf e)) ∧
    (∀ tf1 tf2, (∀ x, x ≠ Json.null → tf1 x = tf2 x) →
      mergeBatch tf1 d b es = mergeBatch tf2 d b es) := by
  refine ⟨?_, ?_, fun tf1 tf2 hagree => mergeBatch_congr tf1 tf2 d b es hagree⟩
  · intro hnull
    rw [mergeBatch_lookup_aligned tf d b es i key e hnd hb he, hnull]
    rfl
  · intro hnn
    rw [mergeBatch_lookup_aligned tf d b es i key e hnd hb he]
    cases e with
    | null => exact absurd rfl hnn
    | num n => rfl
    | str s => rfl
    | arr xs => rfl
    | obj fs => rfl

/-- Witness for C5 at a concrete batch `[x, y]` against the response
`[null, 3]`: `x` is recorded as Absent, `y` as the transformed entry. -/
theorem C5_null_handling_witness :
    Checkpoint.lookup
      (mergeBatch (fun j => Json.arr [j]) [] [Ident.str "x", Ident.str "y"]
        [Json.null, Json.num 3]) (Ident.str "x") = some Json.null ∧
    Checkpoint.lookup
      (mergeBatch (fun j => Json.arr [j]) [] [Ident.str "x", Ident.str "y"]
        [Json.null, Json.num 3]) (Ident.str "y")
      = some (Json.arr [Json.num 3]) :=
  ⟨(C5_null_handling [] [Ident.str "x", Ident.str "y"]
      [Json.null, Json.num 3] (fun j => Json.arr [j]) 0 (Ident.str "x")
      Json.null (by decide) rfl rfl).1 rfl,
   (C5_null_handling [] [Ident.str "x", Ident.str "y"]
      [Json.null, Json.num 3] (fun j => Json.arr [j]) 1 (Ident.str "y")
      (Json.num 3) (by decide) rfl rfl).2.1 (by intro h; cases h)⟩

/-- C9: saving then re-loading the checkpoint is the identity on
string-keyed checkpoints; a checkpoint holding an integer key comes
back changed — the integer key reappears as its decimal string key, so
the reloaded mapping is not equal to the saved one. -/
theorem C9_save_load_round_trip :
    (∀ d : Checkpoint, (∀ p ∈ d, ∃ s, p.1 = Ident.str s) → saveLoad d = d) ∧
    (∀ (d : Checkpoint) (n : ℤ), Checkpoint.hasKey d (Ident.int n) = true →
      saveLoad d ≠ d ∧
      Checkpoint.hasKey (saveLoad d) (Ident.str (toString n)) = true) := by
  constructor
  · intro d hstr
    induction d with
    | nil => rfl
    | cons p ps ih =>
      obtain ⟨s, hs⟩ := hstr p (List.mem_cons_self _ _)
      have hps := ih (fun q hq => hstr q (List.mem_cons_of_mem _ hq))
      simp only [saveLoad, List.map_cons] at hps ⊢
      rw [hps]
      congr 1
      exact Prod.ext_iff.mpr ⟨by rw [hs]; rfl, rfl⟩
  · intro d n hkey
    obtain ⟨p, hp, hp1⟩ := (Checkpoint.hasKey_iff_exists d _).mp hkey
    constructor
    · intro heq
      have hall : ∀ q ∈ saveLoad d, ∃ s, q.1 = Ident.str s := by
        intro q hq
        obtain ⟨q0, _, hq0⟩ := List.mem_map.mp hq
        exact ⟨identKeyString q0.1, by rw [← hq0]⟩
      obtain ⟨s, hs⟩ := hall p (by rw [heq]; exact hp)
      rw [hp1] at hs
      cases hs
    · refine (Checkpoint.hasKey_iff_exists _ _).mpr
        ⟨(Ident.str (identKeyString p.1), p.2), List.mem_map.mpr ⟨p, hp, rfl⟩, ?_⟩
      rw [hp1]
      rfl

/-- C2 (amended): a throttled batch (non-2xx, no error marker) whose
body either contains `"Too Many Requests"` or is valid JSON merges no
results and does not advance the pointer — the continuation runs from
the same `data` and `idx` with only the delay increased, the very next
request (if any) is the identical batch, and the delay slept on is the
already-increased one; but a throttled body with neither property
crashes the run before the sleep (uncaught `JSONDecodeError` from the
debug print), merging nothing and issuing no further requests.
Concretely, a batch `[a,b,c]` throttled twice (with `"Too Many
Requests"` bodies) then successful is requested exactly three times and
each identifier appears exactly once in the final checkpoint. -/
theorem C2_throttled_batch_retried (ids : List Ident) (bs : ℕ)
    (tf : Json → Json) (r : HttpResponse) (rest : List HttpResponse)
    (s : EngineState) (hidx : s.idx < ids.length) (hst : r.status ≠ 200)
    (herr : textHasError r.text = false) :
    ((textHasTMR r.text || r.textParses) = true →
      (runLoop ids bs tf (r :: rest) s =
        { runLoop ids bs tf rest { s with delay := onThrottled s.delay } with
          trace := ((ids.drop s.idx).take bs, s.data) ::
            (runLoop ids bs tf rest
              { s with delay := onThrottled s.delay }).trace,
          delays := onThrottled s.delay ::
            (runLoop ids bs tf rest
              { s with delay := onThrottled s.delay }).delays }) ∧
      (∀ r2 rest2, rest = r2 :: rest2 →
        (runLoop ids bs tf rest
          { s with delay := onThrottled s.delay }).reqs.head? =
          some ((ids.drop s.idx).take bs))) ∧
    (textHasTMR r.text = false → r.textParses = false →
      runLoop ids bs tf (r :: rest) s =
        { data := s.data, persisted := s.persisted,
          trace := [((ids.drop s.idx).take bs, s.data)], delays := [],
          dumps := [], fatal := false, crashed := true,
          outOfScript := false }) ∧
    ((batch_query none [Ident.str "a", Ident.str "b", Ident.str "c"] 3 tf
        [thrResp, thrResp,
          okResp [Json.num 1, Json.num 2, Json.num 3]]).reqs =
      [[Ident.str "a", Ident.str "b", Ident.str "c"],
       [Ident.str "a", Ident.str "b", Ident.str "c"],
       [Ident.str "a", Ident.str "b", Ident.str "c"]]) ∧
    ((batch_query none [Ident.str "a", Ident.str "b", Ident.str "c"] 3 tf
        [thrResp, thrResp,
          okResp [Json.num 1, Json.num 2, Json.num 3]]).data =
      [(Ident.str "a", tf (Json.num 1)), (Ident.str "b", tf (Json.num 2)),
       (Ident.str "c", tf (Json.num 3))]) := by
  refine ⟨fun hret => ⟨runLoop_throttle ids bs tf r rest s hidx hst herr hret,
      ?_⟩,
    fun htmr hpar =>
      runLoop_throttle_crash ids bs tf r rest s hidx hst herr htmr hpar,
    rfl, rfl⟩
  intro r2 rest2 hrest
  subst hrest
  by_cases hst2 : r2.status = 200
  · rw [runLoop_success ids bs tf r2 rest2
      { s with delay := onThrottled s.delay } hidx hst2]
    simp [RunResult.reqs]
  · by_cases herr2 : textHasError r2.text
    · rw [runLoop_fatal ids bs tf r2 rest2
        { s with delay := onThrottled s.delay } hidx hst2 herr2]
      simp [RunResult.reqs]
    · by_cases hret2 : (textHasTMR r2.text || r2.textParses) = true
      · rw [runLoop_throttle ids bs tf r2 rest2
          { s with delay := onThrottled s.delay } hidx hst2
          (Bool.eq_false_iff.mpr (fun hc => herr2 hc)) hret2]
        simp [RunResult.reqs]
      · have h2 : textHasTMR r2.text = false ∧ r2.textParses = false := by
          cases hx : textHasTMR r2.text <;>
            cases hy : r2.textParses <;> simp_all
        rw [runLoop_throttle_crash ids bs tf r2 rest2
          { s with delay := onThrottled s.delay } hidx hst2
          (Bool.eq_false_iff.mpr (fun hc => herr2 hc)) h2.1 h2.2]
        simp [RunResult.reqs]

/-- Witness for C2: the fully-evaluated three-request scenario,
obtained by instantiating the theorem at a concrete throttled step. -/
theorem C2_throttled_batch_retried_witness :
    (batch_query none [Ident.str "a", Ident.str "b", Ident.str "c"] 3
        (fun j => Json.arr [j])
        [thrResp, thrResp,
          okResp [Json.num 1, Json.num 2, Json.num 3]]).reqs =
      [[Ident.str "a", Ident.str "b", Ident.str "c"],
       [Ident.str "a", Ident.str "b", Ident.str "c"],
       [Ident.str "a", Ident.str "b", Ident.str "c"]] :=
  (C2_throttled_batch_retried [Ident.str "a"] 1 (fun j => Json.arr [j])
    thrResp []
    { data := [], persisted := none, idx := 0, delay := QUERY_BASE_DELAY }
    (by decide) (by decide) (by decide)).2.2.1

/-- Counterexample to C2 as stated: a 503 whose body is the plain text
`"Service Unavailable"` — a throttling outcome in the claim's sense
(non-2xx, no `"error"` marker) — does not pause-and-retry: the
line-85 debug print tries `json.loads` on the non-JSON body and the
resulting uncaught exception aborts the run before the sleep, with
nothing merged, no delay slept on, and the scripted follow-up response
never requested. -/
theorem C2_throttled_batch_retried_cex :
    textHasError "Service Unavailable" = false ∧
    textHasTMR "Service Unavailable" = false ∧
    (batch_query none [Ident.str "a"] 1 (fun j => j)
      [{ status := 503, text := "Service Unavailable", textParses := false,
         body := [] },
       okResp [Json.num 1]]).crashed = true ∧
    (batch_query none [Ident.str "a"] 1 (fun j => j)
      [{ status := 503, text := "Service Unavailable", textParses := false,
         body := [] },
       okResp [Json.num 1]]).reqs = [[Ident.str "a"]] ∧
    (batch_query none [Ident.str "a"] 1 (fun j => j)
      [{ status := 503, text := "Service Unavailable", textParses := false,
         body := [] },
       okResp [Json.num 1]]).delays = [] ∧
    (batch_query none [Ident.str "a"] 1 (fun j => j)
      [{ status := 503, text := "Service Unavailable", textParses := false,
         body := [] },
       okResp [Json.num 1]]).data = [] :=
  ⟨by decide, by decide, rfl, by decide, rfl, rfl⟩

/-- C3: a non-2xx response whose body contains the error marker is
fatal — the run ends with no merge, the file keeps exactly what the
last dump wrote, only this one request was issued, and the rest of the
script (any further server behaviour) is never consulted. -/
theorem C3_fatal_error_aborts (ids : List Ident) (bs : ℕ) (tf : Json → Json)
    (r : HttpResponse) (rest : List HttpResponse) (s : EngineState)
    (hidx : s.idx < ids.length) (hst : r.status ≠ 200)
    (herr : textHasError r.text = true) :
    (runLoop ids bs tf (r :: rest) s =
      { data := s.data, persisted := s.persisted,
        trace := [((ids.drop s.idx).take bs, s.data)], delays := [],
        dumps := [], fatal := true, crashed := false,
        outOfScript := false }) ∧
    (∀ rest2, runLoop ids bs tf (r :: rest) s =
      runLoop ids bs tf (r :: rest2) s) := by
  refine ⟨runLoop_fatal ids bs tf r rest s hidx hst herr, fun rest2 => ?_⟩
  rw [runLoop_fatal ids bs tf r rest s hidx hst herr,
    runLoop_fatal ids bs tf r rest2 s hidx hst herr]

/-- Witness for C3: a concrete run hitting a 400 with an error body
terminates fatally at once, leaving the (never-dumped) file absent. -/
theorem C3_fatal_error_aborts_witness :
    runLoop [Ident.str "a"] 1 (fun j => j)
      [{ status := 400, text := "error: bad request", textParses := false,
         body := [] }]
      { data := [], persisted := none, idx := 0, delay := QUERY_BASE_DELAY } =
      { data := [], persisted := none, trace := [([Ident.str "a"], [])],
        delays := [], dumps := [], fatal := true, crashed := false,
        outOfScript := false } :=
  (C3_fatal_error_aborts [Ident.str "a"] 1 (fun j => j)
    { status := 400, text := "error: bad request", textParses := false,
      body := [] } []
    { data := [], persisted := none, idx := 0, delay := QUERY_BASE_DELAY }
    (by decide) (by decide) (by decide)).1

/-- C6 (amended): a periodic dump fires on a successful batch exactly
when the advanced pointer `idx` — which grows by `batch_size` per
successful batch even when the final batch holds fewer identifiers —
is an exact multiple of `batch_size * QUERY_DUMP_INTERVAL`; every
periodic dump value divides that way; and when the work-set is
exhausted one unconditional final save always happens. -/
theorem C6_dump_cadence (ids : List Ident) (bs : ℕ) (tf : Json → Json)
    (r : HttpResponse) (rest : List HttpResponse) (s : EngineState)
    (hidx : s.idx < ids.length) (hok : r.status = 200) :
    (runLoop ids bs tf (r :: rest) s =
      (let batch := (ids.drop s.idx).take bs
       let data := mergeBatch tf s.data batch r.body
       let idx := s.idx + bs
       let doDump := idx % (bs * QUERY_DUMP_INTERVAL) == 0
       let res := runLoop ids bs tf rest
         { data := data, persisted := if doDump then some data else s.persisted,
           idx := idx, delay := onSuccess s.delay }
       { res with trace := (batch, s.data) :: res.trace,
                  delays := onSuccess s.delay :: res.delays,
                  dumps := if doDump then idx :: res.dumps else res.dumps })) ∧
    (∀ (script : List HttpResponse) (s2 : EngineState),
      ¬ s2.idx < ids.length →
      runLoop ids bs tf script s2 =
        { data := s2.data, persisted := some s2.data, trace := [],
          delays := [], dumps := [], fatal := false, crashed := false,
          outOfScript := false }) ∧
    (∀ (script : List HttpResponse) (s2 : EngineState),
      ∀ n ∈ (runLoop ids bs tf script s2).dumps,
        (bs * QUERY_DUMP_INTERVAL) ∣ n) :=
  ⟨runLoop_success ids bs tf r rest s hidx hok,
   fun script s2 h => runLoop_done ids bs tf script s2 h,
   fun script s2 => runLoop_dumps_dvd ids bs tf script s2⟩

/-- Witness for C6: instantiating the final-save clause on a concrete
exhausted state persists the in-memory checkpoint unconditionally. -/
theorem C6_dump_cadence_witness :
    runLoop [Ident.str "a"] 1 (fun j => j) []
      { data := [(Ident.str "a", Json.null)], persisted := none, idx := 1,
        delay := QUERY_BASE_DELAY } =
      { data := [(Ident.str "a", Json.null)],
        persisted := some [(Ident.str "a", Json.null)], trace := [],
        delays := [], dumps := [], fatal := false, crashed := false,
        outOfScript := false } :=
  (C6_dump_cadence [Ident.str "a"] 1 (fun j => j) (okResp [Json.null]) []
    { data := [], persisted := none, idx := 0, delay := QUERY_BASE_DELAY }
    (by decide) rfl).2.1 []
    { data := [(Ident.str "a", Json.null)], persisted := none, idx := 1,
      delay := QUERY_BASE_DELAY } (by decide)

/-- Counterexample to C6 as stated: with `batch_size = 2` and 19
identifiers, the tenth (final, partial) batch advances the pointer to
20 and a periodic dump fires, although only 19 identifiers have been
advanced and 19 is not a multiple of
`batch_size * QUERY_DUMP_INTERVAL = 20`. -/
theorem C6_dump_cadence_cex :
    (batch_query none ((List.range 19).map (fun n => Ident.int n)) 2
      (fun j => j)
      (List.replicate 10 (okResp [Json.num 0, Json.num 0]))).dumps = [20] ∧
    (batch_query none ((List.range 19).map (fun n => Ident.int n)) 2
      (fun j => j)
      (List.replicate 10 (okResp [Json.num 0, Json.num 0]))).data.length = 19 ∧
    ¬ (2 * QUERY_DUMP_INTERVAL ∣ 19) ∧
    (batch_query none ((List.range 19).map (fun n => Ident.int n)) 2
      (fun j => j)
      (List.replicate 10 (okResp [Json.num 0, Json.num 0]))).outOfScript
      = false :=
  ⟨by decide, rfl, by decide, rfl⟩

/-- C10: when a 2xx response carries fewer entries than the batch has
identifiers, the pointer still advances past the whole batch, the
surplus identifiers get no checkpoint entry at all, no later request of
the same run carries them, and any later run whose loaded checkpoint
lacks them keeps them in its work-set. -/
theorem C10_short_success_batch (ids : List Ident) (bs : ℕ)
    (tf : Json → Json) (r : HttpResponse) (rest : List HttpResponse)
    (s : EngineState) (hidx : s.idx < ids.length) (hok : r.status = 200)
    (hnd : ids.Nodup)
    (hshort : r.body.length < ((ids.drop s.idx).take bs).length) :
    (runLoop ids bs tf (r :: rest) s =
      (let batch := (ids.drop s.idx).take bs
       let data := mergeBatch tf s.data batch r.body
       let idx := s.idx + bs
       let doDump := idx % (bs * QUERY_DUMP_INTERVAL) == 0
       let res := runLoop ids bs tf rest
         { data := data, persisted := if doDump then some data else s.persisted,
           idx := idx, delay := onSuccess s.delay }
       { res with trace := (batch, s.data) :: res.trace,
                  delays := onSuccess s.delay :: res.delays,
                  dumps := if doDump then idx :: res.dumps else res.dumps })) ∧
    (∀ key ∈ ((ids.drop s.idx).take bs).drop r.body.length,
      Checkpoint.lookup
          (mergeBatch tf s.data ((ids.drop s.idx).take bs) r.body) key =
        Checkpoint.lookup s.data key) ∧
    (∀ key ∈ (ids.drop s.idx).take bs,
      ∀ req ∈ (runLoop ids bs tf rest
        { data := mergeBatch tf s.data ((ids.drop s.idx).take bs) r.body,
          persisted :=
            if (s.idx + bs) % (bs * QUERY_DUMP_INTERVAL) == 0
            then some (mergeBatch tf s.data ((ids.drop s.idx).take bs) r.body)
            else s.persisted,
          idx := s.idx + bs, delay := onSuccess s.delay }).reqs,
        key ∉ req) ∧
    (∀ (cp : Checkpoint) (qids : List Ident) (key : Ident),
      Checkpoint.hasKey cp key = false → key ∈ qids →
        key ∈ workSet cp qids) := by
  have hbatchnd : ((ids.drop s.idx).take bs).Nodup :=
    ((List.take_sublist bs (ids.drop s.idx)).trans
      (List.drop_sublist s.idx ids)).nodup hnd
  have hdropnd : (ids.drop s.idx).Nodup := (List.drop_sublist s.idx ids).nodup hnd
  refine ⟨runLoop_success ids bs tf r rest s hidx hok, ?_, ?_, ?_⟩
  · intro key hkey
    refine mergeBatch_lookup_of_not_mem_take tf s.data _ r.body key ?_
    intro htake
    exact (List.disjoint_take_drop hbatchnd (le_refl r.body.length)) htake hkey
  · intro key hkey req hreq hmem
    have hin := runLoop_reqs_mem ids bs tf rest _ req hreq key hmem
    rw [← List.drop_drop] at hin
    exact (List.disjoint_take_drop hdropnd (le_refl bs)) hkey hin
  · intro cp qids key hkey hq
    rw [workSet, List.mem_filter]
    simp [hq, hkey]

/-- Witness for C10: batch `[a, b]` answered by a single-entry body
leaves `b` unrecorded while the pointer moves past it. -/
theorem C10_short_success_batch_witness :
    Checkpoint.lookup
        (mergeBatch (fun j => j) []
          ((([Ident.str "a", Ident.str "b"] : List Ident).drop 0).take 2)
          [Json.num 1]) (Ident.str "b") =
      Checkpoint.lookup [] (Ident.str "b") :=
  (C10_short_success_batch [Ident.str "a", Ident.str "b"] 2 (fun j => j)
    (okResp [Json.num 1]) []
    { data := [], persisted := none, idx := 0, delay := QUERY_BASE_DELAY }
    (by decide) rfl (by decide) (by decide)).2.1 (Ident.str "b") (by decide)

/-- C1 (amended): for a duplicate-free identifier list, every request
of a run carries only identifiers with no (non-pending) value in the
checkpoint at the moment the request is issued — so an identifier is
never re-queried after it resolves within a run; and across resumed
runs, a *string* identifier with a value in the persisted checkpoint is
never part of any request of the resumed run.  Both restrictions are
forced by the counterexample: with a duplicated input list the engine
re-requests a resolved identifier at its later positions, and an
integer identifier is re-requested by a resumed run because the JSON
round-trip stringifies its key. -/
theorem C1_no_requery_of_resolved (saved : Option Checkpoint)
    (qids : List Ident) (bs : ℕ) (tf : Json → Json)
    (script : List HttpResponse) (hnd : qids.Nodup) :
    (∀ p ∈ (batch_query saved qids bs tf script).trace, ∀ k ∈ p.1,
      Checkpoint.hasKey p.2 k = false) ∧
    (∀ (cp : Checkpoint) (sid : String),
      Checkpoint.hasKey cp (Ident.str sid) = true →
      ∀ req ∈ (batch_query (some (saveLoad cp)) qids bs tf script).reqs,
        Ident.str sid ∉ req) := by
  constructor
  · have hinv : ∀ k, Checkpoint.hasKey (saved.getD []) k = true →
        k ∉ (workSet (saved.getD []) qids).drop 0 := by
      intro k hkey hmem
      rw [List.drop_zero, workSet, List.mem_filter] at hmem
      rw [hkey] at hmem
      simp at hmem
    exact runLoop_trace_unresolved (workSet (saved.getD []) qids) bs tf script
      { data := saved.getD [], persisted := saved, idx := 0,
        delay := QUERY_BASE_DELAY } (hnd.filter _) hinv
  · intro cp sid hkey req hreq hmem
    have hkey2 : Checkpoint.hasKey (saveLoad cp) (Ident.str sid) = true := by
      obtain ⟨p, hp, hp1⟩ := (Checkpoint.hasKey_iff_exists cp _).mp hkey
      refine (Checkpoint.hasKey_iff_exists _ _).mpr
        ⟨(Ident.str (identKeyString p.1), p.2),
          List.mem_map.mpr ⟨p, hp, rfl⟩, ?_⟩
      rw [hp1]
      rfl
    have hin := runLoop_reqs_mem (workSet (saveLoad cp) qids) bs tf script
      { data := saveLoad cp, persisted := some (saveLoad cp), idx := 0,
        delay := QUERY_BASE_DELAY } req hreq (Ident.str sid) hmem
    rw [List.drop_zero, workSet, List.mem_filter, hkey2] at hin
    simp at hin

/-- Witness for C1: in a concrete duplicate-free two-batch run, the
second request (for `b`) finds `b` unresolved in the checkpoint built
so far (which already holds `a`). -/
theorem C1_no_requery_of_resolved_witness :
    Checkpoint.hasKey [(Ident.str "a", Json.num 1)] (Ident.str "b") = false :=
  (C1_no_requery_of_resolved none [Ident.str "a", Ident.str "b"] 1
    (fun j => j) [okResp [Json.num 1], okResp [Json.num 2]] (by decide)).1
    ([Ident.str "b"], [(Ident.str "a", Json.num 1)])
    (List.mem_cons_of_mem _ (List.mem_cons_self _ _))
    (Ident.str "b") (by decide)

/-- Counterexample to C1 as stated, in two parts.  Cross-run: the
integer identifier 1 is resolved by the first run (its key is in the
persisted checkpoint with a non-pending value), yet a second run
started from that persisted checkpoint issues a request containing it
again, because the JSON round-trip turned the key into the string
`"1"`.  Within-run: on the duplicated input `[a, a]` with batch size 1
the second request still carries `a` although the checkpoint at the
moment it is issued already maps `a` to a non-pending value. -/
theorem C1_no_requery_of_resolved_cex :
    Checkpoint.hasKey
      ((batch_query none [Ident.int 1] 1 (fun j => j)
        [okResp [Json.num 7]]).persisted.getD []) (Ident.int 1) = true ∧
    Checkpoint.lookup
      ((batch_query none [Ident.int 1] 1 (fun j => j)
        [okResp [Json.num 7]]).persisted.getD []) (Ident.int 1)
      = some (Json.num 7) ∧
    (batch_query
      (some (saveLoad ((batch_query none [Ident.int 1] 1 (fun j => j)
        [okResp [Json.num 7]]).persisted.getD [])))
      [Ident.int 1] 1 (fun j => j) [okResp [Json.num 7]]).reqs
      = [[Ident.int 1]] ∧
    (batch_query none [Ident.str "a", Ident.str "a"] 1 (fun j => j)
      [okResp [Json.num 1], okResp [Json.num 2]]).trace =
      [([Ident.str "a"], []),
       ([Ident.str "a"], [(Ident.str "a", Json.num 1)])] ∧
    Checkpoint.hasKey [(Ident.str "a", Json.num 1)] (Ident.str "a")
      = true :=
  ⟨rfl, rfl, by decide, rfl, rfl⟩

/-- C4: the delay starts at the base value; `N` consecutive throttles
from the base produce the sequence `D0*M, …, D0*M^N`; successes decay
it strictly while above the base yet never below it; every delay ever
slept on in any run is at least the base; and the delay admits no upper
bound (a long enough throttle run exceeds any bound). -/
theorem C4_adaptive_rate_limiter (N : ℕ) :
    (∀ k, onThrottled^[k] QUERY_BASE_DELAY =
      QUERY_BASE_DELAY * QUERY_MULT_DELAY ^ k) ∧
    ((batch_query none [Ident.str "a"] 1 (fun j => j)
        (List.replicate N thrResp)).delays =
      (List.range N).map
        (fun k => QUERY_BASE_DELAY * QUERY_MULT_DELAY ^ (k + 1))) ∧
    (∀ k, k < N →
      onSuccess^[k + 1] (QUERY_BASE_DELAY * QUERY_MULT_DELAY ^ N) <
        onSuccess^[k] (QUERY_BASE_DELAY * QUERY_MULT_DELAY ^ N)) ∧
    (∀ k, QUERY_BASE_DELAY ≤
      onSuccess^[k] (QUERY_BASE_DELAY * QUERY_MULT_DELAY ^ N)) ∧
    (∀ (ids : List Ident) (bs : ℕ) (tf : Json → Json)
        (script : List HttpResponse) (s : EngineState),
      QUERY_BASE_DELAY ≤ s.delay →
      ∀ x ∈ (runLoop ids bs tf script s).delays, QUERY_BASE_DELAY ≤ x) ∧
    (∀ B : ℚ, ∃ (m : ℕ) (x : ℚ),
      x ∈ (batch_query none [Ident.str "a"] 1 (fun j => j)
        (List.replicate m thrResp)).delays ∧ B < x) := by
  refine ⟨fun k => onThrottled_iterate _ k, ?_, ?_, ?_, ?_, ?_⟩
  · exact runLoop_replicate_throttle_delays _ 1 _ N
      { data := [], persisted := none, idx := 0, delay := QUERY_BASE_DELAY }
      (by decide)
  · intro k hk
    rw [onSuccess_iterate N (k + 1) hk, onSuccess_iterate N k (le_of_lt hk)]
    refine mul_lt_mul_of_pos_left ?_ (by norm_num [QUERY_BASE_DELAY])
    exact pow_lt_pow_right₀ (by norm_num [QUERY_MULT_DELAY]) (by omega)
  · intro k
    exact onSuccess_iterate_ge k _ (le_mul_of_one_le_right
      (by norm_num [QUERY_BASE_DELAY]) (one_le_mult_pow N))
  · exact fun ids bs tf script s h => runLoop_delays_ge ids bs tf script s h
  · intro B
    obtain ⟨n, hn⟩ := base_times_pow_unbounded B
    refine ⟨n + 1, QUERY_BASE_DELAY * QUERY_MULT_DELAY ^ (n + 1), ?_, ?_⟩
    · have hdel : (batch_query none [Ident.str "a"] 1 (fun j => j)
          (List.replicate (n + 1) thrResp)).delays =
          (List.range (n + 1)).map
            (fun k => QUERY_BASE_DELAY * QUERY_MULT_DELAY ^ (k + 1)) :=
        runLoop_replicate_throttle_delays _ 1 _ (n + 1)
          { data := [], persisted := none, idx := 0,
            delay := QUERY_BASE_DELAY } (by decide)
      rw [hdel]
      exact List.mem_map.mpr ⟨n, List.mem_range.mpr (Nat.lt_succ_self n), rfl⟩
    · refine lt_of_lt_of_le hn ?_
      rw [pow_succ, ← mul_assoc]
      exact le_mul_of_one_le_right
        (le_trans (by norm_num [QUERY_BASE_DELAY])
          (le_mul_of_one_le_right (by norm_num [QUERY_BASE_DELAY])
            (one_le_mult_pow n)))
        (by norm_num [QUERY_MULT_DELAY])

/-- Witness for C4 at `N = 2`: the two-throttle delay sequence is
`[D0*M, D0*M²]`, and one success after the two throttles strictly
decreases the delay. -/
theorem C4_adaptive_rate_limiter_witness :
    ((batch_query none [Ident.str "a"] 1 (fun j => j)
        (List.replicate 2 thrResp)).delays =
      (List.range 2).map
        (fun k => QUERY_BASE_DELAY * QUERY_MULT_DELAY ^ (k + 1))) ∧
    onSuccess^[1] (QUERY_BASE_DELAY * QUERY_MULT_DELAY ^ 2) <
      onSuccess^[0] (QUERY_BASE_DELAY * QUERY_MULT_DELAY ^ 2) :=
  ⟨(C4_adaptive_rate_limiter 2).2.1,
   (C4_adaptive_rate_limiter 2).2.2.1 0 (by norm_num)⟩

/-- C8: the end-to-end scenario — identifiers 1..5, batch size 2, first
batch answered `[{y:2020}, null]`, second batch throttled once then
answered, third batch answered — issues exactly 4 requests and yields
the expected final checkpoint, which the final dump persists. -/
theorem C8_end_to_end_scenario (t : Json → Json) :
    ((batch_query none
        [Ident.int 1, Ident.int 2, Ident.int 3, Ident.int 4, Ident.int 5] 2 t
        [okResp [Json.obj [("y", Json.num 2020)], Json.null],
         thrResp,
         okResp [Json.obj [("y", Json.num 2019)], Json.obj [("y", Json.num 2021)]],
         okResp [Json.obj [("y", Json.num 2018)]]]).reqs =
      [[Ident.int 1, Ident.int 2], [Ident.int 3, Ident.int 4],
       [Ident.int 3, Ident.int 4], [Ident.int 5]]) ∧
    ((batch_query none
        [Ident.int 1, Ident.int 2, Ident.int 3, Ident.int 4, Ident.int 5] 2 t
        [okResp [Json.obj [("y", Json.num 2020)], Json.null],
         thrResp,
         okResp [Json.obj [("y", Json.num 2019)], Json.obj [("y", Json.num 2021)]],
         okResp [Json.obj [("y", Json.num 2018)]]]).data =
      [(Ident.int 1, t (Json.obj [("y", Json.num 2020)])),
       (Ident.int 2, Json.null),
       (Ident.int 3, t (Json.obj [("y", Json.num 2019)])),
       (Ident.int 4, t (Json.obj [("y", Json.num 2021)])),
       (Ident.int 5, t (Json.obj [("y", Json.num 2018)]))]) ∧
    ((batch_query none
        [Ident.int 1, Ident.int 2, Ident.int 3, Ident.int 4, Ident.int 5] 2 t
        [okResp [Json.obj [("y", Json.num 2020)], Json.null],
         thrResp,
         okResp [Json.obj [("y", Json.num 2019)], Json.obj [("y", Json.num 2021)]],
         okResp [Json.obj [("y", Json.num 2018)]]]).persisted =
      some
        [(Ident.int 1, t (Json.obj [("y", Json.num 2020)])),
         (Ident.int 2, Json.null),
         (Ident.int 3, t (Json.obj [("y", Json.num 2019)])),
         (Ident.int 4, t (Json.obj [("y", Json.num 2021)])),
         (Ident.int 5, t (Json.obj [("y", Json.num 2018)]))]) ∧
    ((batch_query none
        [Ident.int 1, Ident.int 2, Ident.int 3, Ident.int 4, Ident.int 5] 2 t
        [okResp [Json.obj [("y", Json.num 2020)], Json.null],
         thrResp,
         okResp [Json.obj [("y", Json.num 2019)], Json.obj [("y", Json.num 2021)]],
         okResp [Json.obj [("y", Json.num 2018)]]]).fatal = false) :=
  ⟨rfl, rfl, rfl, rfl⟩

/-- Witness for C9: a string-keyed checkpoint round-trips unchanged; a
checkpoint with the integer key 5 does not. -/
theorem C9_save_load_round_trip_witness :
    saveLoad [(Ident.str "a", Json.null)] = [(Ident.str "a", Json.null)] ∧
    saveLoad [(Ident.int 5, Json.null)] ≠ [(Ident.int 5, Json.null)] ∧
    Checkpoint.hasKey (saveLoad [(Ident.int 5, Json.null)])
      (Ident.str "5") = true :=
  ⟨C9_save_load_round_trip.1 _ (by intro p hp; simp at hp; exact ⟨"a", by simp [hp]⟩),
   (C9_save_load_round_trip.2 [(Ident.int 5, Json.null)] 5 (by decide)).1,
   (C9_save_load_round_trip.2 [(Ident.int 5, Json.null)] 5 (by decide)).2⟩
